import Mathlib

/-!
Verification of the blackhole fault-injection task
(`src/github.com/cppforlife/turbulence/tasks/blackhole_task.go`).

Modelling conventions:
* Go strings are Lean `String` (a wrapper around `List Char`).
* The two package-level regexes are implemented as executable matchers with
  RE2 (leftmost, greedy) semantics specialised to these concrete patterns:
  `ipPattern = (\d{1,3}\.\d{1,3}\.\d{1,3}\.\d{1,3})(/\d{0,2})?` and
  `portPattern = \d+(:\d+)?$`.
* `strings.ToUpper` / `strings.ToLower` are modelled by ASCII case mapping
  (they agree with Go on ASCII input).
* The external `boshsys.CmdRunner` collaborator is modelled by two
  environment functions: a `DigRunner` giving the outcome of
  `RunCommand "dig" "+short" host`, and an `IptRunner` giving the outcome of
  the k-th `RunCommand "iptables" args` invocation of one `Execute` run.
* `bosherr.WrapError err msg` renders as the string `msg ++ ": " ++ err`.
-/

/-- Result of one external command invocation: its stdout and, when the
invocation failed, the collaborator's error message. (Go `RunCommand`
returns `(stdout, stderr, exitStatus, err)`; the task reads only stdout
and err.) -/
structure CmdResult where
  stdout : String
  err : Option String
  deriving Repr, DecidableEq

/-- Environment for host resolution: the outcome of
`RunCommand "dig" "+short" host` for each host. -/
abbrev DigRunner := String → CmdResult

/-- Environment for firewall mutation: the error outcome (`none` = success)
of the k-th `iptables` invocation of one `Execute` run, given its argument
list. -/
abbrev IptRunner := Nat → List String → Option String

/-- `bosherr.WrapError err msg` message rendering. -/
def wrapErr (msg e : String) : String := msg ++ ": " ++ e

/-- ASCII `strings.ToUpper` (agrees with Go on ASCII strings). -/
def asciiUpper (s : String) : String := ⟨s.data.map Char.toUpper⟩

/-- ASCII `strings.ToLower` (agrees with Go on ASCII strings). -/
def asciiLower (s : String) : String := ⟨s.data.map Char.toLower⟩

/-! ### The `ipPattern` regex -/

/-- Greedy match of one `\d{1,3}\.` group of `ipPattern` at the head of the
input: the maximal digit run must be 1–3 digits long and be followed
immediately by a dot (a longer run cannot match, because every shorter
greedy choice is then followed by a digit, not a dot). Returns the consumed
characters and the rest of the input. -/
def matchOctetDot (cs : List Char) : Option (List Char × List Char) :=
  let ds := cs.takeWhile Char.isDigit
  if 1 ≤ ds.length ∧ ds.length ≤ 3 then
    match cs.dropWhile Char.isDigit with
    | '.' :: rest => some (ds ++ ['.'], rest)
    | _ => none
  else none

/-- Greedy match of the final `\d{1,3}` octet of `ipPattern`: up to three
digits, as many as are available. -/
def matchLastOctet (cs : List Char) : Option (List Char × List Char) :=
  let ds := (cs.takeWhile Char.isDigit).take 3
  if 1 ≤ ds.length then some (ds, cs.drop ds.length) else none

/-- Greedy match of the optional `(/\d{0,2})?` suffix of `ipPattern`: a
slash followed by up to two digits, or nothing. -/
def matchCidrSuffix (cs : List Char) : List Char × List Char :=
  match cs with
  | '/' :: rest =>
    let ds := (rest.takeWhile Char.isDigit).take 2
    ('/' :: ds, rest.drop ds.length)
  | _ => ([], cs)

/-- Match of the whole `ipPattern` anchored at the head of the input. -/
def matchIPAt (cs : List Char) : Option (List Char × List Char) :=
  match matchOctetDot cs with
  | none => none
  | some (a, r1) =>
    match matchOctetDot r1 with
    | none => none
    | some (b, r2) =>
      match matchOctetDot r2 with
      | none => none
      | some (c, r3) =>
        match matchLastOctet r3 with
        | none => none
        | some (d, r4) =>
          let (e, r5) := matchCidrSuffix r4
          some (a ++ b ++ c ++ d ++ e, r5)

/-- `ipPattern.FindAllString s -1`: scan left to right, taking each leftmost
match and continuing right after it. Fueled by the input length, which
suffices because every match consumes at least one character. -/
def findAllIPAux : Nat → List Char → List (List Char)
  | 0, _ => []
  | _ + 1, [] => []
  | fuel + 1, c :: rest =>
    match matchIPAt (c :: rest) with
    | some (m, r) => m :: findAllIPAux fuel r
    | none => findAllIPAux fuel rest

/-- `ipPattern.FindAllString s -1` on a Lean `String`. -/
def ipFindAllString (s : String) : List String :=
  (findAllIPAux s.data.length s.data).map String.mk

/-- `ipPattern.MatchString s`: the pattern has no anchors, so a match exists
iff the left-to-right scan finds at least one. -/
def ipMatchString (s : String) : Bool := !(ipFindAllString s).isEmpty

/-! ### The `portPattern` regex -/

/-- Full match of `\d+(:\d+)?` against an entire character list: a nonempty
digit run, optionally followed by a colon and a second nonempty digit run. -/
def portCoreFull (cs : List Char) : Bool :=
  !(cs.takeWhile Char.isDigit).isEmpty &&
    (match cs.dropWhile Char.isDigit with
     | [] => true
     | ':' :: r => !r.isEmpty && r.all Char.isDigit
     | _ => false)

/-- `portPattern.MatchString s` for `portPattern = \d+(:\d+)?$`: the `$`
anchors the match at the end of the string and the start is free, so the
pattern matches iff some suffix of `s` fully matches `\d+(:\d+)?`. -/
def portMatchString (s : String) : Bool := s.data.tails.any portCoreFull

/-! ### Data model -/

/-- `BlackholeTarget` (JSON names: host, direction, protocol, dstPorts,
srcPorts; Go zero value "" for an absent field). -/
structure BlackholeTarget where
  Host : String
  Direction : String
  Protocol : String
  DstPorts : String
  SrcPorts : String
  deriving Repr, DecidableEq

/-- `BlackholeOptions` (the fault specification). The Go field `Type` is
named `type_` here because `Type` is reserved in Lean. -/
structure BlackholeOptions where
  type_ : String
  Timeout : String
  Targets : List BlackholeTarget
  deriving Repr

/-! ### Host resolution -/

/-- The `dig` method: run `dig +short hostname` through the command runner;
a runner failure is wrapped as "resolving host name: err"; otherwise stdout
is scanned for all `ipPattern` occurrences and an empty scan is the error
"No IPs found for host hostname". -/
def dig (runner : DigRunner) (hostname : String) : Except String (List String) :=
  match (runner hostname).err with
  | some e => .error (wrapErr "resolving host name" e)
  | none =>
    let ips := ipFindAllString (runner hostname).stdout
    if ips.isEmpty then .error ("No IPs found for host " ++ hostname)
    else .ok ips

/-- The per-target host computation of `rules()`: empty host means no host
filter (Go `hosts = nil`, here `[]`; the two non-nil sources below are
always nonempty lists, so `[]` occurs exactly for the empty host); a host
matching `ipPattern` is scanned directly for all literal occurrences;
anything else goes through `dig`. -/
def resolveHosts (runner : DigRunner) (t : BlackholeTarget) : Except String (List String) :=
  if t.Host = "" then .ok []
  else if ipMatchString t.Host then .ok (ipFindAllString t.Host)
  else dig runner t.Host

/-! ### Field validation / normalization -/

/-- The `switch strings.ToUpper(target.Direction)` block of `rules()`
("" and BOTH normalize to "", meaning both chains). -/
def dirNorm (d : String) : Except String String :=
  if asciiUpper d = "" then .ok ""
  else if asciiUpper d = "INPUT" then .ok "INPUT"
  else if asciiUpper d = "OUTPUT" then .ok "OUTPUT"
  else if asciiUpper d = "BOTH" then .ok ""
  else .error ("Invalid direction '" ++ d ++ "', must be one of {INPUT, OUTPUT, BOTH} or blank.")

/-- The `switch strings.ToLower(target.Protocol)` block of `rules()`. -/
def protoNorm (p : String) : Except String String :=
  if asciiLower p = "" then .ok "all"
  else if asciiLower p = "tcp" then .ok "tcp"
  else if asciiLower p = "udp" then .ok "udp"
  else if asciiLower p = "icmp" then .ok "icmp"
  else if asciiLower p = "all" then .ok "all"
  else .error ("Invalid protocol '" ++ p ++ "', must be one of {tcp, udp, icmp, all} or blank.")

/-- The DstPorts validation block of `rules()`. -/
def checkDstPorts (s : String) : Except String String :=
  if s = "" then .ok ""
  else if portMatchString s then .ok s
  else .error ("Invalid destination port specified " ++ s)

/-- The SrcPorts validation block of `rules()`. The Go code reuses the
"destination" wording in this error message. -/
def checkSrcPorts (s : String) : Except String String :=
  if s = "" then .ok ""
  else if portMatchString s then .ok s
  else .error ("Invalid destination port specified " ++ s)

/-! ### Rule text generation -/

/-- The comma-joining loop of `rules()`
(`for i, ip := ...: if i > 0 { command += "," }; command += ip`). -/
def commaJoinLoop (hosts : List String) : String :=
  match hosts with
  | [] => ""
  | h :: t => t.foldl (fun cmd ip => cmd ++ "," ++ ip) h

/-- One chain's command-string construction in `rules()`; `hostFlag` is the
literal `" -s "` (INPUT) or `" -d "` (OUTPUT). -/
def mkRule (chain hostFlag : String) (hosts : List String) (protocol dports sports : String) : String :=
  chain
    ++ (if hosts.isEmpty then "" else hostFlag ++ commaJoinLoop hosts)
    ++ " -p " ++ protocol
    ++ (if dports = "" then "" else " -dport " ++ dports)
    ++ (if sports = "" then "" else " -sport " ++ sports)
    ++ " -j DROP"

/-- The two chain blocks at the end of the per-target loop of `rules()`:
an INPUT rule when direction is "" or INPUT, then an OUTPUT rule when
direction is "" or OUTPUT (INPUT always comes first). -/
def emitRules (direction : String) (hosts : List String) (protocol dports sports : String) : List String :=
  (if direction = "" ∨ direction = "INPUT" then [mkRule "INPUT" " -s " hosts protocol dports sports] else [])
    ++ (if direction = "" ∨ direction = "OUTPUT" then [mkRule "OUTPUT" " -d " hosts protocol dports sports] else [])

/-- One iteration of the target loop in `rules()`: the all-empty check, then
host resolution, direction, protocol and port handling in source order, each
aborting with its error; finally the chain rules for this target. -/
def targetRules (runner : DigRunner) (t : BlackholeTarget) : Except String (List String) :=
  if t.Host = "" ∧ t.DstPorts = "" ∧ t.SrcPorts = "" then
    .error "Must specify at least one of Host, DstPorts, and or SrcPorts."
  else
    match resolveHosts runner t with
    | .error e => .error e
    | .ok hosts =>
      match dirNorm t.Direction with
      | .error e => .error e
      | .ok direction =>
        match protoNorm t.Protocol with
        | .error e => .error e
        | .ok protocol =>
          match checkDstPorts t.DstPorts with
          | .error e => .error e
          | .ok dports =>
            match checkSrcPorts t.SrcPorts with
            | .error e => .error e
            | .ok sports => .ok (emitRules direction hosts protocol dports sports)

/-- The `rules()` method: targets processed in input order, each target's
rules appended in order; the first failing target aborts compilation. -/
def rules (runner : DigRunner) : List BlackholeTarget → Except String (List String)
  | [] => .ok []
  | t :: ts =>
    match targetRules runner t with
    | .error e => .error e
    | .ok rs =>
      match rules runner ts with
      | .error e => .error e
      | .ok rest => .ok (rs ++ rest)

/-! ### Rule execution -/

/-- `strings.Split(s, " ")` on character lists: split at every single space,
preserving empty pieces. -/
def splitSpaces (cs : List Char) : List (List Char) :=
  match cs with
  | [] => [[]]
  | c :: rest =>
    if c = ' ' then [] :: splitSpaces rest
    else
      match splitSpaces rest with
      | [] => [[c]]
      | p :: ps => (c :: p) :: ps

/-- `strings.Split(s, " ")`. -/
def stringsSplitSpace (s : String) : List String := (splitSpaces s.data).map String.mk

/-- The argument list of one `iptables` invocation
(`append([]string{action}, strings.Split(rule, " ")...)`). -/
def iptArgs (action : String) (rule : String) : List String :=
  action :: stringsSplitSpace rule

/-- The apply / revert loop of `Execute`: invoke `iptables action rule` for
each rule in order, stopping at the first failure, whose error is wrapped
as "Shelling out to iptables: err". Returns the ordered invocation trace
(argument lists), the next invocation index, and the first error. -/
def runRules (ipt : IptRunner) (action : String) : Nat → List String → List (List String) × Nat × Option String
  | k, [] => ([], k, none)
  | k, r :: rs =>
    match ipt k (iptArgs action r) with
    | some e => ([iptArgs action r], k + 1, some (wrapErr "Shelling out to iptables" e))
    | none =>
      match runRules ipt action (k + 1) rs with
      | (tr, k2, res) => (iptArgs action r :: tr, k2, res)

/-! ### Lifecycle -/

/-- Modelled from the spec: `NewOptionalTimeoutCh` is code of this
repository that is not under src/ (only its caller `Execute` is). Per the
spec, the timeout string is a decimal duration suffixed with ms, s, m or h;
an empty string means "no timer". Returns the optional timer duration in
milliseconds, or a parse error. -/
def NewOptionalTimeoutCh (s : String) : Except String (Option Nat) :=
  if s = "" then .ok none
  else
    let ds := s.data.takeWhile Char.isDigit
    let n := ds.foldl (fun acc c => acc * 10 + (c.toNat - 48)) 0
    if ds.isEmpty then .error ("Invalid timeout '" ++ s ++ "'")
    else
      match s.data.dropWhile Char.isDigit with
      | ['m', 's'] => .ok (some n)
      | ['s'] => .ok (some (n * 1000))
      | ['m'] => .ok (some (n * 60000))
      | ['h'] => .ok (some (n * 3600000))
      | _ => .error ("Invalid timeout '" ++ s ++ "'")

/-- Which of the two raced signals ended the Waiting phase:
`timerFired` = the optional timer, `cancelled` = the external stop channel. -/
inductive WaitOutcome
  | timerFired
  | cancelled
  deriving Repr, DecidableEq

/-- Observable outcome of one `Execute` run: the ordered trace of `iptables`
invocations (argument lists) and the returned error (`none` = nil). -/
structure ExecOutcome where
  calls : List (List String)
  err : Option String
  deriving Repr, DecidableEq

/-- The `Execute` method: create the optional timeout channel, compile the
rules, apply each rule (`-A`) in compiled order, wait on the
`select { case <-timeoutCh: case <-stopCh: }` race (the `wait` parameter
records which signal ended the wait; the subsequent behaviour is the same
either way), then revert each rule (`-D`) in the same order. The first
failure at any stage aborts with its error. -/
def Execute (digR : DigRunner) (ipt : IptRunner) (opts : BlackholeOptions)
    (wait : WaitOutcome) : ExecOutcome :=
  match NewOptionalTimeoutCh opts.Timeout with
  | .error e => ⟨[], some e⟩
  | .ok _ =>
    match rules digR opts.Targets with
    | .error e => ⟨[], some e⟩
    | .ok rs =>
      match runRules ipt "-A" 0 rs with
      | (applyTrace, _, some e) => ⟨applyTrace, some e⟩
      | (applyTrace, k, none) =>
        match wait, runRules ipt "-D" k rs with
        | _, (revertTrace, _, revertErr) => ⟨applyTrace ++ revertTrace, revertErr⟩

/-! ### Execution-loop lemmas -/

theorem runRules_allOk (ipt : IptRunner) (action : String)
    (hipt : ∀ k args, ipt k args = none) :
    ∀ (rs : List String) (k : Nat),
      runRules ipt action k rs = (rs.map (iptArgs action), k + rs.length, none) := by
  intro rs
  induction rs with
  | nil => intro k; simp [runRules]
  | cons r rs ih =>
    intro k
    simp only [runRules, hipt, ih (k + 1), List.map_cons, List.length_cons]
    have h : k + 1 + rs.length = k + (rs.length + 1) := by omega
    rw [h]

theorem runRules_failAt (ipt : IptRunner) (action : String) (e : String) :
    ∀ (pre : List String) (r : String) (post : List String) (k : Nat),
      (∀ j args, j < k + pre.length → ipt j args = none) →
      ipt (k + pre.length) (iptArgs action r) = some e →
      runRules ipt action k (pre ++ r :: post) =
        (pre.map (iptArgs action) ++ [iptArgs action r], k + pre.length + 1,
          some (wrapErr "Shelling out to iptables" e)) := by
  intro pre
  induction pre with
  | nil =>
    intro r post k hok hfail
    simp only [List.length_nil, Nat.add_zero] at hfail ⊢
    simp [runRules, hfail]
  | cons p pre ih =>
    intro r post k hok hfail
    have hp : ipt k (iptArgs action p) = none := hok k _ (by simp)
    have hfail' : ipt (k + 1 + pre.length) (iptArgs action r) = some e := by
      have h : k + 1 + pre.length = k + (p :: pre).length := by simp; omega
      rw [h]; exact hfail
    have hok' : ∀ j args, j < k + 1 + pre.length → ipt j args = none := by
      intro j args hj
      exact hok j args (by simp; omega)
    have hih := ih r post (k + 1) hok' hfail'
    rw [List.cons_append, runRules, hp, hih]
    simp only [List.map_cons, List.cons_append, List.length_cons, Prod.mk.injEq]
    refine ⟨trivial, by omega, trivial⟩

/-! ### Claim C1 -/

/-- C1: for every fault specification whose timeout parses and that compiles
to a rule list `rs` of length N, when the cancellation signal ends the wait
(before any timer) and every external invocation succeeds, `Execute` invokes
iptables exactly N times with the apply action "-A" on the compiled rules in
order, then exactly N times with the revert action "-D" on the same rules in
the same (not reversed) order, and returns no error. -/
theorem C1_apply_then_revert_in_order (digR : DigRunner) (ipt : IptRunner)
    (opts : BlackholeOptions) (sel : WaitOutcome) (tc : Option Nat) (rs : List String)
    (hto : NewOptionalTimeoutCh opts.Timeout = .ok tc)
    (hrules : rules digR opts.Targets = .ok rs)
    (hipt : ∀ k args, ipt k args = none)
    (hsel : sel = WaitOutcome.cancelled) :
    Execute digR ipt opts sel =
      ⟨rs.map (iptArgs "-A") ++ rs.map (iptArgs "-D"), none⟩ := by
  subst hsel
  unfold Execute
  simp only [hto, hrules, runRules_allOk ipt "-A" hipt, runRules_allOk ipt "-D" hipt]

/-- Witness for C1 at a concrete one-target specification. -/
theorem C1_witness :
    NewOptionalTimeoutCh "" = .ok none ∧
    rules (fun _ => ⟨"", none⟩) [⟨"10.0.0.5", "", "", "", ""⟩] =
      .ok ["INPUT -s 10.0.0.5 -p all -j DROP", "OUTPUT -d 10.0.0.5 -p all -j DROP"] ∧
    (∀ k args, (fun (_ : Nat) (_ : List String) => (none : Option String)) k args = none) ∧
    Execute (fun _ => ⟨"", none⟩) (fun _ _ => none)
        ⟨"blackhole", "", [⟨"10.0.0.5", "", "", "", ""⟩]⟩ WaitOutcome.cancelled =
      ⟨[["-A", "INPUT", "-s", "10.0.0.5", "-p", "all", "-j", "DROP"],
        ["-A", "OUTPUT", "-d", "10.0.0.5", "-p", "all", "-j", "DROP"],
        ["-D", "INPUT", "-s", "10.0.0.5", "-p", "all", "-j", "DROP"],
        ["-D", "OUTPUT", "-d", "10.0.0.5", "-p", "all", "-j", "DROP"]], none⟩ := by
  refine ⟨rfl, rfl, fun _ _ => rfl, ?_⟩
  have h := C1_apply_then_revert_in_order (fun _ => ⟨"", none⟩) (fun _ _ => none)
    ⟨"blackhole", "", [⟨"10.0.0.5", "", "", "", ""⟩]⟩ WaitOutcome.cancelled none
    ["INPUT -s 10.0.0.5 -p all -j DROP", "OUTPUT -d 10.0.0.5 -p all -j DROP"]
    rfl rfl (fun _ _ => rfl) rfl
  exact h.trans rfl

/-! ### Claim C2 -/

/-- C2: if compilation yields the rule list `pre ++ r :: post` and the
environment succeeds on the first `pre.length` iptables invocations but
fails on the next one (the apply of rule `r`, the (pre.length + 1)-th rule),
then `Execute` performs exactly the applies of `pre` and the failing apply
of `r` — no revert ("-D") invocation and no further apply — and returns the
apply error wrapping the collaborator's failure. -/
theorem C2_apply_failure_aborts (digR : DigRunner) (ipt : IptRunner)
    (opts : BlackholeOptions) (sel : WaitOutcome) (tc : Option Nat)
    (pre : List String) (r : String) (post : List String) (e : String)
    (hto : NewOptionalTimeoutCh opts.Timeout = .ok tc)
    (hrules : rules digR opts.Targets = .ok (pre ++ r :: post))
    (hok : ∀ j args, j < pre.length → ipt j args = none)
    (hfail : ipt pre.length (iptArgs "-A" r) = some e) :
    Execute digR ipt opts sel =
      ⟨pre.map (iptArgs "-A") ++ [iptArgs "-A" r],
        some (wrapErr "Shelling out to iptables" e)⟩ := by
  unfold Execute
  simp only [hto, hrules,
    runRules_failAt ipt "-A" e pre r post 0 (by simpa using hok) (by simpa using hfail)]

/-- Witness for C2: the second apply (k = 2, 1-indexed) fails. -/
theorem C2_witness :
    NewOptionalTimeoutCh "" = .ok none ∧
    rules (fun _ => ⟨"", none⟩) [⟨"10.0.0.5", "", "", "", ""⟩] =
      .ok (["INPUT -s 10.0.0.5 -p all -j DROP"] ++ "OUTPUT -d 10.0.0.5 -p all -j DROP" :: []) ∧
    (∀ j args, j < (["INPUT -s 10.0.0.5 -p all -j DROP"] : List String).length →
      (fun (k : Nat) (_ : List String) => if k = 0 then (none : Option String) else some "boom") j args = none) ∧
    (fun (k : Nat) (_ : List String) => if k = 0 then (none : Option String) else some "boom")
        (["INPUT -s 10.0.0.5 -p all -j DROP"] : List String).length
        (iptArgs "-A" "OUTPUT -d 10.0.0.5 -p all -j DROP") = some "boom" ∧
    Execute (fun _ => ⟨"", none⟩)
        (fun k _ => if k = 0 then none else some "boom")
        ⟨"blackhole", "", [⟨"10.0.0.5", "", "", "", ""⟩]⟩ WaitOutcome.cancelled =
      ⟨[["-A", "INPUT", "-s", "10.0.0.5", "-p", "all", "-j", "DROP"],
        ["-A", "OUTPUT", "-d", "10.0.0.5", "-p", "all", "-j", "DROP"]],
        some "Shelling out to iptables: boom"⟩ := by
  refine ⟨rfl, rfl, ?_, rfl, ?_⟩
  · intro j args hj
    simp only [List.length_singleton, Nat.lt_one_iff] at hj
    simp [hj]
  · have h := C2_apply_failure_aborts (fun _ => ⟨"", none⟩)
      (fun k _ => if k = 0 then none else some "boom")
      ⟨"blackhole", "", [⟨"10.0.0.5", "", "", "", ""⟩]⟩ WaitOutcome.cancelled none
      ["INPUT -s 10.0.0.5 -p all -j DROP"] "OUTPUT -d 10.0.0.5 -p all -j DROP" [] "boom"
      rfl rfl ?_ rfl
    · exact h.trans rfl
    · intro j args hj
      simp only [List.length_singleton, Nat.lt_one_iff] at hj
      simp [hj]

/-! ### Claim C10 -/

/-- C10: a fault specification with a parseable (or absent) timeout and an
empty targets list compiles to zero rules, and `Execute` performs no
iptables invocation at all and returns no error, whichever signal (timer or
cancellation) ends the wait: an empty specification is a successful no-op. -/
theorem C10_empty_spec_noop (digR : DigRunner) (ipt : IptRunner) (sel : WaitOutcome)
    (ty timeout : String) (tc : Option Nat)
    (hto : NewOptionalTimeoutCh timeout = .ok tc) :
    rules digR [] = .ok [] ∧
    Execute digR ipt ⟨ty, timeout, []⟩ sel = ⟨[], none⟩ := by
  refine ⟨rfl, ?_⟩
  cases sel <;>
    · unfold Execute
      rw [show (⟨ty, timeout, []⟩ : BlackholeOptions).Timeout = timeout from rfl, hto]
      rfl

/-- Witness for C10 at an absent timeout and at a 5-second timeout. -/
theorem C10_witness :
    NewOptionalTimeoutCh "5s" = .ok (some 5000) ∧
    (rules (fun _ => ⟨"", none⟩) [] = .ok [] ∧
      Execute (fun _ => ⟨"", none⟩) (fun _ _ => some "never called") ⟨"blackhole", "5s", []⟩
        WaitOutcome.timerFired = ⟨[], none⟩) := by
  exact ⟨rfl, C10_empty_spec_noop (fun _ => ⟨"", none⟩) (fun _ _ => some "never called")
    WaitOutcome.timerFired "blackhole" "5s" (some 5000) rfl⟩

/-! ### Claim C4 -/

/-- C4: the single target with host "10.0.0.5" and every other field empty
compiles to exactly two rules, the INPUT rule first:
"INPUT -s 10.0.0.5 -p all -j DROP" then "OUTPUT -d 10.0.0.5 -p all -j DROP"
(for every resolver environment: the literal host is never resolved). -/
theorem C4_literal_host_two_rules (digR : DigRunner) :
    targetRules digR ⟨"10.0.0.5", "", "", "", ""⟩ =
      .ok ["INPUT -s 10.0.0.5 -p all -j DROP", "OUTPUT -d 10.0.0.5 -p all -j DROP"] ∧
    rules digR [⟨"10.0.0.5", "", "", "", ""⟩] =
      .ok ["INPUT -s 10.0.0.5 -p all -j DROP", "OUTPUT -d 10.0.0.5 -p all -j DROP"] := by
  constructor <;> rfl

/-! ### Claim C7 -/

/-- C7: behaviour of the host resolver on a host that is sent to `dig`
(one that does not match the IPv4-literal pattern): it fails with the
wrapped resolution error exactly when the external lookup fails; it fails
with the "No IPs found for host ..." error naming the host exactly when the
lookup succeeds but its output contains zero IPv4-literal matches; otherwise
it returns all IPv4-literal occurrences of the lookup output. -/
theorem C7_dig_error_cases (digR : DigRunner) (host : String) :
    (∀ e, (digR host).err = some e →
      dig digR host = .error (wrapErr "resolving host name" e)) ∧
    ((digR host).err = none → ipFindAllString (digR host).stdout = [] →
      dig digR host = .error ("No IPs found for host " ++ host)) ∧
    ((digR host).err = none → ipFindAllString (digR host).stdout ≠ [] →
      dig digR host = .ok (ipFindAllString (digR host).stdout)) ∧
    (∀ t : BlackholeTarget, t.Host = host → host ≠ "" → ipMatchString host = false →
      resolveHosts digR t = dig digR host) := by
  refine ⟨?_, ?_, ?_, ?_⟩
  · intro e he
    simp [dig, he]
  · intro he hempty
    simp [dig, he, hempty]
  · intro he hne
    simp [dig, he, hne]
  · intro t ht hne hnm
    simp [resolveHosts, ht, hne, hnm]

/-- Witness for C7: a lookup returning two addresses, a lookup returning
prose with no address, and a failing lookup. -/
theorem C7_witness :
    (((fun _ => ⟨"5.6.7.8 9.10.11.12\n", none⟩ : DigRunner) "a.example").err = none ∧
      ipFindAllString (((fun _ => ⟨"5.6.7.8 9.10.11.12\n", none⟩ : DigRunner) "a.example").stdout) ≠ [] ∧
      dig (fun _ => ⟨"5.6.7.8 9.10.11.12\n", none⟩) "a.example" = .ok ["5.6.7.8", "9.10.11.12"]) ∧
    (((fun _ => ⟨"no match here", none⟩ : DigRunner) "unresolvable.example").err = none ∧
      dig (fun _ => ⟨"no match here", none⟩) "unresolvable.example" =
        .error ("No IPs found for host " ++ "unresolvable.example")) ∧
    (dig (fun _ => ⟨"", some "dns down"⟩) "b.example" =
      .error (wrapErr "resolving host name" "dns down")) := by
  refine ⟨⟨rfl, ?_, ?_⟩, ⟨rfl, ?_⟩, ?_⟩
  · intro h
    exact absurd h (by decide)
  · exact ((C7_dig_error_cases (fun _ => ⟨"5.6.7.8 9.10.11.12\n", none⟩) "a.example").2.2.1
      rfl (by decide)).trans rfl
  · exact (C7_dig_error_cases (fun _ => ⟨"no match here", none⟩) "unresolvable.example").2.1
      rfl rfl
  · exact (C7_dig_error_cases (fun _ => ⟨"", some "dns down"⟩) "b.example").1 "dns down" rfl

/-! ### Claim C3 -/

/-- The per-target failure conditions of `rules()`: all three optional
fields empty, a direction outside {"", INPUT, OUTPUT, BOTH} (after ASCII
upcasing), a protocol outside {"", tcp, udp, icmp, all} (after ASCII
downcasing), a nonempty DstPorts/SrcPorts rejected by `portPattern`, or a
non-literal host whose `dig` resolution fails. -/
def badTarget (runner : DigRunner) (t : BlackholeTarget) : Prop :=
  (t.Host = "" ∧ t.DstPorts = "" ∧ t.SrcPorts = "")
  ∨ asciiUpper t.Direction ∉ (["", "INPUT", "OUTPUT", "BOTH"] : List String)
  ∨ asciiLower t.Protocol ∉ (["", "tcp", "udp", "icmp", "all"] : List String)
  ∨ (t.DstPorts ≠ "" ∧ portMatchString t.DstPorts = false)
  ∨ (t.SrcPorts ≠ "" ∧ portMatchString t.SrcPorts = false)
  ∨ (t.Host ≠ "" ∧ ipMatchString t.Host = false ∧ ∃ e, dig runner t.Host = .error e)

theorem dirNorm_notMem (d : String)
    (h : asciiUpper d ∉ (["", "INPUT", "OUTPUT", "BOTH"] : List String)) :
    dirNorm d = .error ("Invalid direction '" ++ d ++ "', must be one of {INPUT, OUTPUT, BOTH} or blank.") := by
  simp only [List.mem_cons, List.not_mem_nil, or_false, not_or] at h
  obtain ⟨h1, h2, h3, h4⟩ := h
  simp [dirNorm, h1, h2, h3, h4]

theorem protoNorm_notMem (p : String)
    (h : asciiLower p ∉ (["", "tcp", "udp", "icmp", "all"] : List String)) :
    protoNorm p = .error ("Invalid protocol '" ++ p ++ "', must be one of {tcp, udp, icmp, all} or blank.") := by
  simp only [List.mem_cons, List.not_mem_nil, or_false, not_or] at h
  obtain ⟨h1, h2, h3, h4, h5⟩ := h
  simp [protoNorm, h1, h2, h3, h4, h5]

theorem checkDstPorts_bad (s : String) (h1 : s ≠ "") (h2 : portMatchString s = false) :
    checkDstPorts s = .error ("Invalid destination port specified " ++ s) := by
  simp [checkDstPorts, h1, h2]

theorem checkSrcPorts_bad (s : String) (h1 : s ≠ "") (h2 : portMatchString s = false) :
    checkSrcPorts s = .error ("Invalid destination port specified " ++ s) := by
  simp [checkSrcPorts, h1, h2]

theorem targetRules_error_of_bad (runner : DigRunner) (t : BlackholeTarget)
    (h : badTarget runner t) : ∃ e, targetRules runner t = .error e := by
  by_cases hall : t.Host = "" ∧ t.DstPorts = "" ∧ t.SrcPorts = ""
  · exact ⟨"Must specify at least one of Host, DstPorts, and or SrcPorts.",
      by simp [targetRules, hall]⟩
  cases hres : resolveHosts runner t with
  | error e => exact ⟨e, by simp [targetRules, hall, hres]⟩
  | ok hosts =>
  cases hd : dirNorm t.Direction with
  | error e => exact ⟨e, by simp [targetRules, hall, hres, hd]⟩
  | ok dirv =>
  cases hpn : protoNorm t.Protocol with
  | error e => exact ⟨e, by simp [targetRules, hall, hres, hd, hpn]⟩
  | ok pv =>
  cases hdp : checkDstPorts t.DstPorts with
  | error e => exact ⟨e, by simp [targetRules, hall, hres, hd, hpn, hdp]⟩
  | ok dpv =>
  cases hsp : checkSrcPorts t.SrcPorts with
  | error e => exact ⟨e, by simp [targetRules, hall, hres, hd, hpn, hdp, hsp]⟩
  | ok spv =>
  exfalso
  rcases h with h1 | h2 | h3 | h4 | h5 | h6
  · exact hall h1
  · exact Except.noConfusion ((dirNorm_notMem _ h2).symm.trans hd)
  · exact Except.noConfusion ((protoNorm_notMem _ h3).symm.trans hpn)
  · exact Except.noConfusion ((checkDstPorts_bad _ h4.1 h4.2).symm.trans hdp)
  · exact Except.noConfusion ((checkSrcPorts_bad _ h5.1 h5.2).symm.trans hsp)
  · obtain ⟨hh, hm, e0, he0⟩ := h6
    have hr : resolveHosts runner t = .error e0 := by simp [resolveHosts, hh, hm, he0]
    exact Except.noConfusion (hr.symm.trans hres)

theorem rules_error_of_mem (runner : DigRunner) (ts : List BlackholeTarget)
    (t : BlackholeTarget) (hmem : t ∈ ts) (ht : ∃ e, targetRules runner t = .error e) :
    ∃ e, rules runner ts = .error e := by
  induction ts with
  | nil => cases hmem
  | cons t0 ts ih =>
    cases htr : targetRules runner t0 with
    | error e => exact ⟨e, by simp [rules, htr]⟩
    | ok rs0 =>
      rcases List.mem_cons.mp hmem with rfl | hmem2
      · obtain ⟨e, he⟩ := ht
        exact Except.noConfusion (he.symm.trans htr)
      · obtain ⟨e, he⟩ := ih hmem2
        exact ⟨e, by simp [rules, htr, he]⟩

/-- C3: compilation is atomically pre-apply. If any target of the fault
specification fails validation (all-empty target, bad direction, bad
protocol, bad port) or host resolution, compiling the rule set returns an
error, and `Execute` performs zero iptables invocations for that run. -/
theorem C3_invalid_target_no_iptables (digR : DigRunner) (ipt : IptRunner)
    (opts : BlackholeOptions) (sel : WaitOutcome) (t : BlackholeTarget)
    (hmem : t ∈ opts.Targets) (hbad : badTarget digR t) :
    (∃ e, rules digR opts.Targets = .error e) ∧
    (Execute digR ipt opts sel).calls = [] := by
  have hr := rules_error_of_mem digR opts.Targets t hmem (targetRules_error_of_bad digR t hbad)
  refine ⟨hr, ?_⟩
  obtain ⟨e, he⟩ := hr
  unfold Execute
  cases hto : NewOptionalTimeoutCh opts.Timeout with
  | error e2 => simp
  | ok tc => simp [he]

/-- Witness for C3: a target with a literal host but an invalid direction. -/
theorem C3_witness :
    (⟨"1.2.3.4", "sideways", "", "", ""⟩ : BlackholeTarget) ∈
        ([⟨"1.2.3.4", "sideways", "", "", ""⟩] : List BlackholeTarget) ∧
    badTarget (fun _ => ⟨"", none⟩) ⟨"1.2.3.4", "sideways", "", "", ""⟩ ∧
    ((∃ e, rules (fun _ => ⟨"", none⟩) [⟨"1.2.3.4", "sideways", "", "", ""⟩] = .error e) ∧
      (Execute (fun _ => ⟨"", none⟩) (fun _ _ => none)
        ⟨"blackhole", "", [⟨"1.2.3.4", "sideways", "", "", ""⟩]⟩ WaitOutcome.cancelled).calls = []) := by
  refine ⟨by simp, Or.inr (Or.inl (by decide)), ?_⟩
  exact C3_invalid_target_no_iptables (fun _ => ⟨"", none⟩) (fun _ _ => none)
    ⟨"blackhole", "", [⟨"1.2.3.4", "sideways", "", "", ""⟩]⟩ WaitOutcome.cancelled
    ⟨"1.2.3.4", "sideways", "", "", ""⟩ (by simp) (Or.inr (Or.inl (by decide)))

/-! ### Claim C5 -/

theorem portCoreFull_last (cs : List Char) (h : portCoreFull cs = true) :
    ∃ c, cs.getLast? = some c ∧ c.isDigit = true := by
  rw [portCoreFull, Bool.and_eq_true] at h
  obtain ⟨hds, hrest⟩ := h
  have hne : cs.takeWhile Char.isDigit ≠ [] := by
    intro h0
    rw [h0] at hds
    simp at hds
  split at hrest
  next heq =>
    have h0 : cs.takeWhile Char.isDigit ++ cs.dropWhile Char.isDigit = cs :=
      List.takeWhile_append_dropWhile Char.isDigit cs
    rw [heq, List.append_nil] at h0
    refine ⟨(cs.takeWhile Char.isDigit).getLast hne, ?_, ?_⟩
    · conv_lhs => rw [← h0]
      exact List.getLast?_eq_getLast _ hne
    · exact List.mem_takeWhile_imp (List.getLast_mem hne)
  next r heq =>
    rw [Bool.and_eq_true] at hrest
    obtain ⟨hr1, hr2⟩ := hrest
    have hrne : r ≠ [] := by
      intro h0
      rw [h0] at hr1
      simp at hr1
    have h0 : cs.takeWhile Char.isDigit ++ cs.dropWhile Char.isDigit = cs :=
      List.takeWhile_append_dropWhile Char.isDigit cs
    rw [heq] at h0
    refine ⟨r.getLast hrne, ?_, ?_⟩
    · conv_lhs => rw [← h0]
      rw [List.getLast?_append]
      cases r with
      | nil => exact absurd rfl hrne
      | cons r0 rs =>
        rw [List.getLast?_cons_cons, List.getLast?_eq_getLast (r0 :: rs) (by simp),
          Option.or_some]
    · exact List.all_eq_true.mp hr2 _ (List.getLast_mem hrne)
  next =>
    simp at hrest

theorem lastDigit_portCoreFull (cs : List Char) (c : Char)
    (hlast : cs.getLast? = some c) (hdig : c.isDigit = true) :
    ∃ t, t ∈ cs.tails ∧ portCoreFull t = true := by
  have hne : cs ≠ [] := by
    intro h0
    rw [h0] at hlast
    simp at hlast
  have hc : cs.getLast hne = c := by
    have h1 := List.getLast?_eq_getLast cs hne
    rw [hlast] at h1
    exact (Option.some.injEq _ _).mp h1.symm
  refine ⟨[c], ?_, ?_⟩
  · rw [List.mem_tails]
    refine ⟨cs.dropLast, ?_⟩
    rw [← hc]
    exact List.dropLast_concat_getLast hne
  · rw [portCoreFull]
    have h1 : [c].takeWhile Char.isDigit = [c] := by
      simp [List.takeWhile_cons, hdig]
    have h2 : [c].dropWhile Char.isDigit = [] := by
      simp [List.dropWhile_cons, hdig]
    rw [h1, h2]
    rfl

theorem portMatchString_iff_lastDigit (s : String) :
    portMatchString s = true ↔ ∃ c, s.data.getLast? = some c ∧ c.isDigit = true := by
  rw [portMatchString, List.any_eq_true]
  constructor
  · rintro ⟨t, ht, hcore⟩
    obtain ⟨c, hlast, hdig⟩ := portCoreFull_last t hcore
    refine ⟨c, ?_, hdig⟩
    rw [List.mem_tails] at ht
    obtain ⟨pre, hpre⟩ := ht
    rw [← hpre, List.getLast?_append, hlast, Option.or_some]
  · rintro ⟨c, hlast, hdig⟩
    exact lastDigit_portCoreFull s.data c hlast hdig

/-- C5 (amended): a non-empty dstPorts or srcPorts string passes the port
validation iff its final character is a decimal digit (the validation
pattern is anchored only at the end of the string), and validation success
or failure determines the outcome of the two port checks of `rules()`.
In particular every single decimal port or low:high range is accepted
("8080") and "abc" is rejected, but strings such as "abc8080" are also
accepted, refuting the claim as stated. -/
theorem C5_port_validation_lastDigit (s : String) (hne : s ≠ "") :
    (portMatchString s = true ↔ ∃ c, s.data.getLast? = some c ∧ c.isDigit = true) ∧
    (portMatchString s = true →
      checkDstPorts s = .ok s ∧ checkSrcPorts s = .ok s) ∧
    (portMatchString s = false →
      checkDstPorts s = .error ("Invalid destination port specified " ++ s) ∧
      checkSrcPorts s = .error ("Invalid destination port specified " ++ s)) := by
  refine ⟨portMatchString_iff_lastDigit s, ?_, ?_⟩
  · intro h
    exact ⟨by simp [checkDstPorts, hne, h], by simp [checkSrcPorts, hne, h]⟩
  · intro h
    exact ⟨by simp [checkDstPorts, hne, h], by simp [checkSrcPorts, hne, h]⟩

/-- Witness for C5: "8080" is accepted and "abc" is rejected. -/
theorem C5_witness :
    ("8080" : String) ≠ "" ∧ ("abc" : String) ≠ "" ∧
    (portMatchString "8080" = true ↔
      ∃ c, ("8080" : String).data.getLast? = some c ∧ c.isDigit = true) ∧
    (portMatchString "8080" = true →
      checkDstPorts "8080" = .ok "8080" ∧ checkSrcPorts "8080" = .ok "8080") ∧
    (portMatchString "abc" = false →
      checkDstPorts "abc" = .error ("Invalid destination port specified " ++ "abc") ∧
      checkSrcPorts "abc" = .error ("Invalid destination port specified " ++ "abc")) := by
  refine ⟨by decide, by decide, ?_, ?_, ?_⟩
  · exact (C5_port_validation_lastDigit "8080" (by decide)).1
  · exact (C5_port_validation_lastDigit "8080" (by decide)).2.1
  · exact (C5_port_validation_lastDigit "abc" (by decide)).2.2

/-- The spec's port-spec grammar, stated from the spec's words: "either a
single decimal port or a `low:high` decimal range" — an entirely-digits
string, or digits, a colon, and digits. -/
def specPortSpec (s : String) : Bool :=
  (!s.data.isEmpty && s.data.all Char.isDigit) ||
    (match s.data.dropWhile Char.isDigit with
     | ':' :: r =>
       !(s.data.takeWhile Char.isDigit).isEmpty && (!r.isEmpty && r.all Char.isDigit)
     | _ => false)

/-- Counterexample to C5 as stated: "abc8080" is neither a single decimal
port nor a low:high decimal range, yet it passes the port validation (the
pattern only inspects the end of the string). -/
theorem C5_cex_not_iff :
    checkDstPorts "abc8080" = .ok "abc8080" ∧ specPortSpec "abc8080" = false := by
  exact ⟨rfl, rfl⟩

/-! ### Claim C6 -/

theorem dirNorm_blank_or_both (d : String)
    (h : asciiUpper d = "" ∨ asciiUpper d = "BOTH") : dirNorm d = .ok "" := by
  rcases h with h | h <;> simp [dirNorm, h]

theorem dirNorm_input (d : String) (h : asciiUpper d = "INPUT") :
    dirNorm d = .ok "INPUT" := by
  simp [dirNorm, h]

theorem dirNorm_output (d : String) (h : asciiUpper d = "OUTPUT") :
    dirNorm d = .ok "OUTPUT" := by
  simp [dirNorm, h]

/-- C6: direction normalization is case-insensitive via ASCII upcasing.
For a target whose other fields validate, an empty direction or any
letter-casing of BOTH compiles to the two chain rules with INPUT emitted
before OUTPUT; any casing of INPUT (resp. OUTPUT) compiles to only that
chain's rule; any other direction string fails compilation with the
invalid-direction error. -/
theorem C6_direction_normalization (digR : DigRunner) (t : BlackholeTarget)
    (hosts : List String) (protocol dports sports : String)
    (hne : ¬(t.Host = "" ∧ t.DstPorts = "" ∧ t.SrcPorts = ""))
    (hres : resolveHosts digR t = .ok hosts)
    (hpr : protoNorm t.Protocol = .ok protocol)
    (hdp : checkDstPorts t.DstPorts = .ok dports)
    (hsp : checkSrcPorts t.SrcPorts = .ok sports) :
    ((asciiUpper t.Direction = "" ∨ asciiUpper t.Direction = "BOTH") →
      targetRules digR t = .ok [mkRule "INPUT" " -s " hosts protocol dports sports,
        mkRule "OUTPUT" " -d " hosts protocol dports sports]) ∧
    (asciiUpper t.Direction = "INPUT" →
      targetRules digR t = .ok [mkRule "INPUT" " -s " hosts protocol dports sports]) ∧
    (asciiUpper t.Direction = "OUTPUT" →
      targetRules digR t = .ok [mkRule "OUTPUT" " -d " hosts protocol dports sports]) ∧
    (asciiUpper t.Direction ∉ (["", "INPUT", "OUTPUT", "BOTH"] : List String) →
      targetRules digR t =
        .error ("Invalid direction '" ++ t.Direction ++ "', must be one of {INPUT, OUTPUT, BOTH} or blank.")) := by
  refine ⟨?_, ?_, ?_, ?_⟩
  · intro h
    simp [targetRules, hne, hres, dirNorm_blank_or_both t.Direction h, hpr, hdp, hsp,
      emitRules]
  · intro h
    simp [targetRules, hne, hres, dirNorm_input t.Direction h, hpr, hdp, hsp, emitRules]
  · intro h
    simp [targetRules, hne, hres, dirNorm_output t.Direction h, hpr, hdp, hsp, emitRules]
  · intro h
    simp [targetRules, hne, hres, dirNorm_notMem t.Direction h]

/-- Witness for C6: mixed-case direction "BoTh" and protocol "TCP". -/
theorem C6_witness :
    (¬(("10.0.0.5" : String) = "" ∧ ("8080" : String) = "" ∧ ("" : String) = "")) ∧
    resolveHosts (fun _ => ⟨"", none⟩) ⟨"10.0.0.5", "BoTh", "TCP", "8080", ""⟩ =
      .ok ["10.0.0.5"] ∧
    protoNorm "TCP" = .ok "tcp" ∧
    checkDstPorts "8080" = .ok "8080" ∧
    checkSrcPorts "" = .ok "" ∧
    asciiUpper "BoTh" = "BOTH" ∧
    targetRules (fun _ => ⟨"", none⟩) ⟨"10.0.0.5", "BoTh", "TCP", "8080", ""⟩ =
      .ok [mkRule "INPUT" " -s " ["10.0.0.5"] "tcp" "8080" "",
        mkRule "OUTPUT" " -d " ["10.0.0.5"] "tcp" "8080" ""] := by
  refine ⟨by decide, rfl, rfl, rfl, rfl, rfl, ?_⟩
  exact (C6_direction_normalization (fun _ => ⟨"", none⟩)
    ⟨"10.0.0.5", "BoTh", "TCP", "8080", ""⟩ ["10.0.0.5"] "tcp" "8080" ""
    (by decide) rfl rfl rfl rfl).1 (Or.inr rfl)

/-! ### Claim C8 -/

/-- Comma-separated rendering, stated from the spec's words ("joined into a
single comma-separated match list"). -/
def specJoin : List String → String
  | [] => ""
  | [x] => x
  | x :: y :: rest => x ++ "," ++ specJoin (y :: rest)

/-- The comma-prefixed tail laid down by the joining loop after its first
iteration. -/
def commaTail : List String → String
  | [] => ""
  | x :: xs => "," ++ x ++ commaTail xs

theorem foldl_commaTail (ts : List String) :
    ∀ acc : String, ts.foldl (fun cmd ip => cmd ++ "," ++ ip) acc = acc ++ commaTail ts := by
  induction ts with
  | nil =>
    intro acc
    simp [commaTail]
  | cons x xs ih =>
    intro acc
    simp only [List.foldl_cons, commaTail, ih (acc ++ "," ++ x)]
    simp [String.append_assoc]

theorem specJoin_cons_eq (t : List String) :
    ∀ h : String, specJoin (h :: t) = h ++ commaTail t := by
  induction t with
  | nil =>
    intro h
    simp [specJoin, commaTail]
  | cons y ys ih =>
    intro h
    simp only [specJoin, commaTail, ih y]
    simp [String.append_assoc]

theorem commaJoinLoop_eq_specJoin (hosts : List String) :
    commaJoinLoop hosts = specJoin hosts := by
  cases hosts with
  | nil => rfl
  | cons h t =>
    rw [commaJoinLoop, foldl_commaTail t h, specJoin_cons_eq t h]

/-- The fixed tail of a compiled rule after the optional host-match field. -/
def ruleTail (protocol dports sports : String) : String :=
  " -p " ++ protocol
    ++ (if dports = "" then "" else " -dport " ++ dports)
    ++ (if sports = "" then "" else " -sport " ++ sports)
    ++ " -j DROP"

theorem mkRule_nonempty_hosts (chain hostFlag : String) (hosts : List String)
    (protocol dports sports : String) (h : hosts ≠ []) :
    mkRule chain hostFlag hosts protocol dports sports =
      chain ++ hostFlag ++ specJoin hosts ++ ruleTail protocol dports sports := by
  have hie : hosts.isEmpty = false := by
    cases hosts with
    | nil => exact absurd rfl h
    | cons a l => rfl
  apply String.ext
  simp [mkRule, ruleTail, hie, commaJoinLoop_eq_specJoin, List.append_assoc]

/-- C8: when a target's host resolves to two or more addresses, the
compiler joins them with commas into the single host-match field of exactly
one rule per applicable chain; a single target never yields more than one
rule per chain. -/
theorem C8_comma_joined_single_rule (digR : DigRunner) (t : BlackholeTarget)
    (hosts : List String) (dir protocol dports sports : String)
    (hres : resolveHosts digR t = .ok hosts)
    (hlen : 2 ≤ hosts.length)
    (hd : dirNorm t.Direction = .ok dir)
    (hpr : protoNorm t.Protocol = .ok protocol)
    (hdp : checkDstPorts t.DstPorts = .ok dports)
    (hsp : checkSrcPorts t.SrcPorts = .ok sports) :
    targetRules digR t = .ok (emitRules dir hosts protocol dports sports) ∧
    emitRules dir hosts protocol dports sports =
      (if dir = "" ∨ dir = "INPUT"
        then ["INPUT -s " ++ specJoin hosts ++ ruleTail protocol dports sports] else [])
      ++ (if dir = "" ∨ dir = "OUTPUT"
        then ["OUTPUT -d " ++ specJoin hosts ++ ruleTail protocol dports sports] else []) := by
  have hhost : t.Host ≠ "" := by
    intro hh
    rw [resolveHosts, if_pos hh] at hres
    have h0 : hosts = [] := by
      cases hres
      rfl
    rw [h0] at hlen
    exact absurd hlen (by simp)
  have hne : ¬(t.Host = "" ∧ t.DstPorts = "" ∧ t.SrcPorts = "") := fun hc => hhost hc.1
  have hnil : hosts ≠ [] := by
    intro h0
    rw [h0] at hlen
    exact absurd hlen (by simp)
  constructor
  · simp [targetRules, hne, hres, hd, hpr, hdp, hsp]
  · have hIn := mkRule_nonempty_hosts "INPUT" " -s " hosts protocol dports sports hnil
    have hOut := mkRule_nonempty_hosts "OUTPUT" " -d " hosts protocol dports sports hnil
    unfold emitRules
    rw [hIn, hOut, show ("INPUT" : String) ++ " -s " = "INPUT -s " from rfl,
      show ("OUTPUT" : String) ++ " -d " = "OUTPUT -d " from rfl]

/-- Witness for C8: a host field holding two IPv4 literals. -/
theorem C8_witness :
    resolveHosts (fun _ => ⟨"", none⟩) ⟨"1.2.3.4 5.6.7.8", "", "", "", ""⟩ =
      .ok ["1.2.3.4", "5.6.7.8"] ∧
    2 ≤ (["1.2.3.4", "5.6.7.8"] : List String).length ∧
    dirNorm "" = .ok "" ∧
    protoNorm "" = .ok "all" ∧
    checkDstPorts "" = .ok "" ∧
    checkSrcPorts "" = .ok "" ∧
    (targetRules (fun _ => ⟨"", none⟩) ⟨"1.2.3.4 5.6.7.8", "", "", "", ""⟩ =
        .ok (emitRules "" ["1.2.3.4", "5.6.7.8"] "all" "" "") ∧
      emitRules "" ["1.2.3.4", "5.6.7.8"] "all" "" "" =
        (if ("" : String) = "" ∨ ("" : String) = "INPUT"
          then ["INPUT -s " ++ specJoin ["1.2.3.4", "5.6.7.8"] ++ ruleTail "all" "" ""] else [])
        ++ (if ("" : String) = "" ∨ ("" : String) = "OUTPUT"
          then ["OUTPUT -d " ++ specJoin ["1.2.3.4", "5.6.7.8"] ++ ruleTail "all" "" ""] else [])) ∧
    targetRules (fun _ => ⟨"", none⟩) ⟨"1.2.3.4 5.6.7.8", "", "", "", ""⟩ =
      .ok ["INPUT -s 1.2.3.4,5.6.7.8 -p all -j DROP",
        "OUTPUT -d 1.2.3.4,5.6.7.8 -p all -j DROP"] := by
  refine ⟨rfl, by decide, rfl, rfl, rfl, rfl, ?_, rfl⟩
  exact C8_comma_joined_single_rule (fun _ => ⟨"", none⟩)
    ⟨"1.2.3.4 5.6.7.8", "", "", "", ""⟩ ["1.2.3.4", "5.6.7.8"] "" "all" "" ""
    rfl (by decide) rfl rfl rfl rfl

/-! ### Claim C9 -/

theorem protoNorm_mem_ok (p pv : String) (h : protoNorm p = .ok pv) :
    pv ∈ (["tcp", "udp", "icmp", "all"] : List String) := by
  rw [protoNorm] at h
  split_ifs at h <;> simp_all

theorem targetRules_ok_shape (runner : DigRunner) (t : BlackholeTarget) (rs : List String)
    (h : targetRules runner t = .ok rs) :
    ∃ hosts dirv pv dpv spv, protoNorm t.Protocol = .ok pv ∧
      rs = emitRules dirv hosts pv dpv spv := by
  rw [targetRules] at h
  by_cases hall : t.Host = "" ∧ t.DstPorts = "" ∧ t.SrcPorts = ""
  · rw [if_pos hall] at h
    exact absurd h (by simp)
  rw [if_neg hall] at h
  cases hres : resolveHosts runner t with
  | error e =>
    rw [hres] at h
    simp at h
  | ok hosts =>
    rw [hres] at h
    cases hd : dirNorm t.Direction with
    | error e =>
      rw [hd] at h
      simp at h
    | ok dirv =>
      rw [hd] at h
      cases hpn : protoNorm t.Protocol with
      | error e =>
        rw [hpn] at h
        simp at h
      | ok pv =>
        rw [hpn] at h
        cases hdp : checkDstPorts t.DstPorts with
        | error e =>
          rw [hdp] at h
          simp at h
        | ok dpv =>
          rw [hdp] at h
          cases hsp : checkSrcPorts t.SrcPorts with
          | error e =>
            rw [hsp] at h
            simp at h
          | ok spv =>
            rw [hsp] at h
            simp at h
            exact ⟨hosts, dirv, pv, dpv, spv, rfl, h.symm⟩

theorem rules_ok_mem_shape (runner : DigRunner) (ts : List BlackholeTarget) :
    ∀ (rs : List String), rules runner ts = .ok rs →
      ∀ r ∈ rs, ∃ hosts pv dpv spv,
        pv ∈ (["tcp", "udp", "icmp", "all"] : List String) ∧
        (r = mkRule "INPUT" " -s " hosts pv dpv spv ∨
          r = mkRule "OUTPUT" " -d " hosts pv dpv spv) := by
  induction ts with
  | nil =>
    intro rs h r hr
    rw [rules] at h
    simp at h
    subst h
    cases hr
  | cons t0 ts ih =>
    intro rs h r hr
    rw [rules] at h
    cases htr : targetRules runner t0 with
    | error e =>
      rw [htr] at h
      simp at h
    | ok rs0 =>
      rw [htr] at h
      cases hrest : rules runner ts with
      | error e =>
        rw [hrest] at h
        simp at h
      | ok rs1 =>
        rw [hrest] at h
        simp at h
        have hr' : r ∈ rs0 ++ rs1 := by
          rw [h]
          exact hr
        rcases List.mem_append.mp hr' with h0 | h1
        · obtain ⟨hosts, dirv, pv, dpv, spv, hpn, hemit⟩ :=
            targetRules_ok_shape runner t0 rs0 htr
          have hmemE : r ∈ emitRules dirv hosts pv dpv spv := by
            rw [← hemit]
            exact h0
          have hpv := protoNorm_mem_ok t0.Protocol pv hpn
          rw [emitRules] at hmemE
          rcases List.mem_append.mp hmemE with hIn | hOut
          · split at hIn
            · simp at hIn
              exact ⟨hosts, pv, dpv, spv, hpv, Or.inl hIn⟩
            · cases hIn
          · split at hOut
            · simp at hOut
              exact ⟨hosts, pv, dpv, spv, hpv, Or.inr hOut⟩
            · cases hOut
        · exact ih rs1 hrest r h1

theorem mkRule_shape (chain hostFlag : String) (hosts : List String)
    (pv dpv spv : String) :
    ∃ mid pre post,
      mkRule chain hostFlag hosts pv dpv spv = chain ++ mid ++ " -j DROP" ∧
      mid = pre ++ " -p " ++ pv ++ post := by
  refine ⟨(if hosts.isEmpty then "" else hostFlag ++ commaJoinLoop hosts) ++ " -p " ++ pv
      ++ ((if dpv = "" then "" else " -dport " ++ dpv)
        ++ (if spv = "" then "" else " -sport " ++ spv)),
    (if hosts.isEmpty then "" else hostFlag ++ commaJoinLoop hosts),
    (if dpv = "" then "" else " -dport " ++ dpv)
      ++ (if spv = "" then "" else " -sport " ++ spv), ?_, rfl⟩
  apply String.ext
  simp [mkRule, List.append_assoc]

/-- C9 (amended): every rule string produced by the compiler has the form
`chain ++ mid ++ " -j DROP"` with chain "INPUT" or "OUTPUT" (so it begins
with the chain name and ends with " -j DROP"), and `mid` contains the
compiler-emitted protocol field " -p p" with p ∈ {tcp, udp, icmp, all}.
The original "exactly one protocol field" is false: a validated port string
may itself contain " -p " (see the counterexample), so a rule can contain
more than one such field. -/
theorem C9_rule_shape (digR : DigRunner) (targets : List BlackholeTarget)
    (rs : List String) (h : rules digR targets = .ok rs) :
    ∀ r ∈ rs, ∃ mid p pre post,
      p ∈ (["tcp", "udp", "icmp", "all"] : List String) ∧
      (r = "INPUT" ++ mid ++ " -j DROP" ∨ r = "OUTPUT" ++ mid ++ " -j DROP") ∧
      mid = pre ++ " -p " ++ p ++ post := by
  intro r hr
  obtain ⟨hosts, pv, dpv, spv, hpv, hshape⟩ := rules_ok_mem_shape digR targets rs h r hr
  rcases hshape with h0 | h0
  · obtain ⟨mid, pre, post, hmk, hmid⟩ := mkRule_shape "INPUT" " -s " hosts pv dpv spv
    exact ⟨mid, pv, pre, post, hpv, Or.inl (h0.trans hmk), hmid⟩
  · obtain ⟨mid, pre, post, hmk, hmid⟩ := mkRule_shape "OUTPUT" " -d " hosts pv dpv spv
    exact ⟨mid, pv, pre, post, hpv, Or.inr (h0.trans hmk), hmid⟩

/-- Witness for C9 at a concrete ports-only specification. -/
theorem C9_witness :
    rules (fun _ => ⟨"", none⟩) [⟨"", "", "", "8080", ""⟩] =
      .ok ["INPUT -p all -dport 8080 -j DROP", "OUTPUT -p all -dport 8080 -j DROP"] ∧
    (∀ r ∈ (["INPUT -p all -dport 8080 -j DROP",
        "OUTPUT -p all -dport 8080 -j DROP"] : List String),
      ∃ mid p pre post,
        p ∈ (["tcp", "udp", "icmp", "all"] : List String) ∧
        (r = "INPUT" ++ mid ++ " -j DROP" ∨ r = "OUTPUT" ++ mid ++ " -j DROP") ∧
        mid = pre ++ " -p " ++ p ++ post) :=
  ⟨rfl, C9_rule_shape (fun _ => ⟨"", none⟩) [⟨"", "", "", "8080", ""⟩] _ rfl⟩

/-- Number of occurrences of `pat` in `s`: positions whose suffix starts
with `pat`. -/
def countOccurrences (pat s : String) : Nat :=
  (s.data.tails.filter (fun t => t.take pat.data.length == pat.data)).length

/-- Counterexample to C9 as stated: the port string "a -p tcp 1" passes the
port validation (it ends in a digit), and the compiled INPUT rule then
contains two protocol fields, " -p all" (compiler-emitted) and " -p tcp"
(from the port string) — not exactly one. -/
theorem C9_cex_two_protocol_fields :
    rules (fun _ => ⟨"", none⟩) [⟨"", "", "", "a -p tcp 1", ""⟩] =
      .ok ["INPUT -p all -dport a -p tcp 1 -j DROP",
        "OUTPUT -p all -dport a -p tcp 1 -j DROP"] ∧
    countOccurrences " -p " "INPUT -p all -dport a -p tcp 1 -j DROP" = 2 ∧
    countOccurrences " -p all" "INPUT -p all -dport a -p tcp 1 -j DROP" = 1 ∧
    countOccurrences " -p tcp" "INPUT -p all -dport a -p tcp 1 -j DROP" = 1 :=
  ⟨rfl, by decide, by decide, by decide⟩
